import Mathlib

/-!
# Verification of the auto-regular-investment-plan decision engine

Shallow embedding of the decision engine of the repository
`auto-regular-investment-plan`.  JS numbers are modelled as exact rationals
(`ℚ`), JS `null`/`undefined` as `Option`, and fallible operations as
`Except`.  Frontend functions are translated from
`src/frontend/src/views/Market.vue`, `src/frontend/src/views/HistoricalTest.vue`
and the Pinia config store; backend components that exist only behind the
HTTP API (ScoreEngine, FrequencyPolicy, CircuitBreakerController,
PlanGenerator, HistoricalReplayAdapter) are modelled from the spec and are
marked as such in their doc comments.
-/

namespace AutoInvest

/-- Clip `x` into the interval `[lo, hi]` (the spec's `clip`). -/
def clip (x lo hi : ℚ) : ℚ := max lo (min x hi)

/-- Currency rounding to two decimals, and JS `Number.toFixed(2)` on
nonnegative inputs: round half away handled as round-half-up on `100 * x`. -/
def round2 (x : ℚ) : ℚ := (round (100 * x) : ℚ) / 100

/-- Investment frequency (`daily` / `weekly` / `biweekly` / `monthly`). -/
inductive Frequency
  | daily
  | weekly
  | biweekly
  | monthly
deriving DecidableEq, Repr

/-- Score-level labels of the frequency-policy band table (§4.4). -/
inductive ScoreLevel
  | extremeOversold
  | valueZone
  | neutral
  | overvalued
  | bubble
deriving DecidableEq, Repr

/-- Outcome of the frequency policy for one total score. -/
structure FrequencyDecision where
  level : ScoreLevel
  frequency : Frequency
  amountFactor : ℚ
deriving DecidableEq, Repr

/-- Modelled from the spec: the backend FrequencyPolicy /
`determine_frequency` band table (§4.4) is not under `src/`; only its
frontend mirrors (`scoreRanges`, `getScoreLevelText` in `Market.vue`) are.
Score lower bounds are inclusive. -/
def frequencyPolicy (totalScore : ℚ) : FrequencyDecision :=
  if 80 ≤ totalScore then ⟨.extremeOversold, .daily, 3/2⟩
  else if 65 ≤ totalScore then ⟨.valueZone, .weekly, 6/5⟩
  else if 40 ≤ totalScore then ⟨.neutral, .biweekly, 1⟩
  else if 20 ≤ totalScore then ⟨.overvalued, .monthly, 4/5⟩
  else ⟨.bubble, .monthly, 1/2⟩

/-- From `Market.vue` (`getScoreLevelText`): the frontend band text for a
total score. -/
def getScoreLevelText (score : ℚ) : String :=
  if 80 ≤ score then "极度超跌区间（每日投资）"
  else if 65 ≤ score then "价值区间（每周投资）"
  else if 40 ≤ score then "中性区间（每两周投资）"
  else if 20 ≤ score then "高估区间（每月投资）"
  else "极度泡沫区间（谨慎投资）"

/-- The frontend text associated to each band label, as displayed by
`getScoreLevelText`. -/
def scoreLevelText : ScoreLevel → String
  | .extremeOversold => "极度超跌区间（每日投资）"
  | .valueZone => "价值区间（每周投资）"
  | .neutral => "中性区间（每两周投资）"
  | .overvalued => "高估区间（每月投资）"
  | .bubble => "极度泡沫区间（谨慎投资）"

theorem frequencyPolicy_extreme {s : ℚ} (h : 80 ≤ s) :
    frequencyPolicy s = ⟨.extremeOversold, .daily, 3/2⟩ := by
  unfold frequencyPolicy
  rw [if_pos h]

theorem frequencyPolicy_value {s : ℚ} (h1 : 65 ≤ s) (h2 : s < 80) :
    frequencyPolicy s = ⟨.valueZone, .weekly, 6/5⟩ := by
  unfold frequencyPolicy
  rw [if_neg (by linarith), if_pos h1]

theorem frequencyPolicy_neutral {s : ℚ} (h1 : 40 ≤ s) (h2 : s < 65) :
    frequencyPolicy s = ⟨.neutral, .biweekly, 1⟩ := by
  unfold frequencyPolicy
  rw [if_neg (by linarith), if_neg (by linarith), if_pos h1]

theorem frequencyPolicy_overvalued {s : ℚ} (h1 : 20 ≤ s) (h2 : s < 40) :
    frequencyPolicy s = ⟨.overvalued, .monthly, 4/5⟩ := by
  unfold frequencyPolicy
  rw [if_neg (by linarith), if_neg (by linarith), if_neg (by linarith), if_pos h1]

theorem frequencyPolicy_bubble {s : ℚ} (h : s < 20) :
    frequencyPolicy s = ⟨.bubble, .monthly, 1/2⟩ := by
  unfold frequencyPolicy
  rw [if_neg (by linarith), if_neg (by linarith), if_neg (by linarith),
    if_neg (by linarith)]

/-- Integer scores land in the same band as their rational cast; adjacent
integers get the same decision unless they straddle one of the four band
boundaries. -/
theorem frequencyPolicy_int_boundary (n : ℤ) :
    frequencyPolicy (n : ℚ) ≠ frequencyPolicy ((n : ℚ) + 1) ↔
      n = 79 ∨ n = 64 ∨ n = 39 ∨ n = 19 := by
  rcases lt_trichotomy n 19 with h | h | h
  · have h1 : ((n : ℚ)) < 20 := by exact_mod_cast (by omega : n < (20 : ℤ))
    have h2 : ((n : ℚ)) + 1 < 20 := by
      have : ((n : ℚ)) < 19 := by exact_mod_cast h
      linarith
    rw [frequencyPolicy_bubble h1, frequencyPolicy_bubble h2]
    simp
    omega
  · subst h
    rw [frequencyPolicy_bubble (by norm_num),
      frequencyPolicy_overvalued (by norm_num) (by norm_num)]
    simp
  rcases lt_trichotomy n 39 with h' | h' | h'
  · have h1 : (20 : ℚ) ≤ (n : ℚ) := by exact_mod_cast (by omega : (20 : ℤ) ≤ n)
    have h2 : ((n : ℚ)) + 1 < 40 := by
      have : ((n : ℚ)) < 39 := by exact_mod_cast h'
      linarith
    rw [frequencyPolicy_overvalued h1 (by linarith),
      frequencyPolicy_overvalued (by linarith) h2]
    simp
    omega
  · subst h'
    rw [frequencyPolicy_overvalued (by norm_num) (by norm_num),
      frequencyPolicy_neutral (by norm_num) (by norm_num)]
    simp
  rcases lt_trichotomy n 64 with h2 | h2 | h2
  · have ha : (40 : ℚ) ≤ (n : ℚ) := by exact_mod_cast (by omega : (40 : ℤ) ≤ n)
    have hb : ((n : ℚ)) + 1 < 65 := by
      have : ((n : ℚ)) < 64 := by exact_mod_cast h2
      linarith
    rw [frequencyPolicy_neutral ha (by linarith),
      frequencyPolicy_neutral (by linarith) hb]
    simp
    omega
  · subst h2
    rw [frequencyPolicy_neutral (by norm_num) (by norm_num),
      frequencyPolicy_value (by norm_num) (by norm_num)]
    simp
  rcases lt_trichotomy n 79 with h3 | h3 | h3
  · have ha : (65 : ℚ) ≤ (n : ℚ) := by exact_mod_cast (by omega : (65 : ℤ) ≤ n)
    have hb : ((n : ℚ)) + 1 < 80 := by
      have : ((n : ℚ)) < 79 := by exact_mod_cast h3
      linarith
    rw [frequencyPolicy_value ha (by linarith),
      frequencyPolicy_value (by linarith) hb]
    simp
    omega
  · subst h3
    rw [frequencyPolicy_value (by norm_num) (by norm_num),
      frequencyPolicy_extreme (by norm_num)]
    simp
  · have ha : (80 : ℚ) ≤ (n : ℚ) := by exact_mod_cast (by omega : (80 : ℤ) ≤ n)
    rw [frequencyPolicy_extreme ha, frequencyPolicy_extreme (by linarith)]
    simp
    omega

/-- C1: the frequency/amount mapping is the fixed band table with inclusive
lower bounds (score ≥ 80 ⇒ extreme_oversold / daily / 1.5; 65–79 ⇒
value_zone / weekly / 1.2; 40–64 ⇒ neutral / biweekly / 1.0; 20–39 ⇒
overvalued / monthly / 0.8; < 20 ⇒ bubble / monthly / 0.5); adjacent
integer scores give different outcomes exactly at the boundaries 79/80,
64/65, 39/40 and 19/20; equal scores give equal frequency and
amount_factor; and the frontend band text `getScoreLevelText` agrees with
the policy's level on every score. -/
theorem C1_frequency_band_table :
    (∀ s : ℚ, 80 ≤ s → frequencyPolicy s = ⟨.extremeOversold, .daily, 3/2⟩) ∧
    (∀ s : ℚ, 65 ≤ s → s ≤ 79 → frequencyPolicy s = ⟨.valueZone, .weekly, 6/5⟩) ∧
    (∀ s : ℚ, 40 ≤ s → s ≤ 64 → frequencyPolicy s = ⟨.neutral, .biweekly, 1⟩) ∧
    (∀ s : ℚ, 20 ≤ s → s ≤ 39 → frequencyPolicy s = ⟨.overvalued, .monthly, 4/5⟩) ∧
    (∀ s : ℚ, s < 20 → frequencyPolicy s = ⟨.bubble, .monthly, 1/2⟩) ∧
    (∀ n : ℤ, frequencyPolicy (n : ℚ) ≠ frequencyPolicy ((n : ℚ) + 1) ↔
      n = 79 ∨ n = 64 ∨ n = 39 ∨ n = 19) ∧
    (∀ s t : ℚ, s = t →
      (frequencyPolicy s).frequency = (frequencyPolicy t).frequency ∧
      (frequencyPolicy s).amountFactor = (frequencyPolicy t).amountFactor) ∧
    (∀ s : ℚ, getScoreLevelText s = scoreLevelText (frequencyPolicy s).level) := by
  refine ⟨fun s h => frequencyPolicy_extreme h,
    fun s h1 h2 => frequencyPolicy_value h1 (by linarith),
    fun s h1 h2 => frequencyPolicy_neutral h1 (by linarith),
    fun s h1 h2 => frequencyPolicy_overvalued h1 (by linarith),
    fun s h => frequencyPolicy_bubble h,
    frequencyPolicy_int_boundary,
    fun s t h => by rw [h]; exact ⟨rfl, rfl⟩,
    fun s => ?_⟩
  unfold getScoreLevelText frequencyPolicy
  split
  · rfl
  split
  · rfl
  split
  · rfl
  split
  · rfl
  rfl

/-- Witness for C1 at concrete scores: one input per band, and the 79/80
boundary. -/
theorem C1_frequency_band_table_witness :
    frequencyPolicy 85 = ⟨.extremeOversold, .daily, 3/2⟩ ∧
    frequencyPolicy 70 = ⟨.valueZone, .weekly, 6/5⟩ ∧
    frequencyPolicy 50 = ⟨.neutral, .biweekly, 1⟩ ∧
    frequencyPolicy 30 = ⟨.overvalued, .monthly, 4/5⟩ ∧
    frequencyPolicy 10 = ⟨.bubble, .monthly, 1/2⟩ ∧
    frequencyPolicy (79 : ℤ) ≠ frequencyPolicy ((79 : ℤ) + (1 : ℚ)) :=
  ⟨C1_frequency_band_table.1 85 (by norm_num),
   C1_frequency_band_table.2.1 70 (by norm_num) (by norm_num),
   C1_frequency_band_table.2.2.1 50 (by norm_num) (by norm_num),
   C1_frequency_band_table.2.2.2.1 30 (by norm_num) (by norm_num),
   C1_frequency_band_table.2.2.2.2.1 10 (by norm_num),
   ((C1_frequency_band_table.2.2.2.2.2.1 79).mpr (Or.inl rfl))⟩

/-! ## Circuit breaker (spec §4.5) -/

/-- Circuit-breaker level, from least to most restrictive. -/
inductive BreakerLevel
  | normal
  | light
  | moderate
  | severe
deriving DecidableEq, Repr

/-- Restrictiveness rank of a breaker level. -/
def BreakerLevel.rank : BreakerLevel → ℕ
  | .normal => 0
  | .light => 1
  | .moderate => 2
  | .severe => 3

/-- The next level upward (one step less restrictive). -/
def BreakerLevel.stepUp : BreakerLevel → BreakerLevel
  | .severe => .moderate
  | .moderate => .light
  | .light => .normal
  | .normal => .normal

/-- reduction_factor per level (§4.5). -/
def reductionFactor : BreakerLevel → ℚ
  | .normal => 1
  | .light => 4/5
  | .moderate => 1/2
  | .severe => 1/10

/-- Circuit-breaker state: current level plus the consecutive-improvement
counter. -/
structure BreakerState where
  level : BreakerLevel
  improveCount : ℕ
deriving DecidableEq, Repr

/-- Modelled from the spec: the CircuitBreakerController
(`evaluate_market_condition` / `check_recovery_condition`) is not under
`src/`.  One evaluation of the aggregate market condition: `target` is the
level the aggregate signal indicates.  Worsening (a more restrictive
target) is applied immediately; an improving signal increments the
consecutive-improvement counter and, once the counter reaches the
configured threshold, steps the level up by exactly one and resets the
counter; an unchanged signal resets the counter. -/
def breakerStep (threshold : ℕ) (s : BreakerState) (target : BreakerLevel) :
    BreakerState :=
  if s.level.rank < target.rank then ⟨target, 0⟩
  else if target.rank < s.level.rank then
    if threshold ≤ s.improveCount + 1 then ⟨s.level.stepUp, 0⟩
    else ⟨s.level, s.improveCount + 1⟩
  else ⟨s.level, 0⟩

/-- Run the breaker over a sequence of aggregate evaluations. -/
def breakerRun (threshold : ℕ) (s : BreakerState) (evals : List BreakerLevel) :
    BreakerState :=
  evals.foldl (breakerStep threshold) s

/-- All levels visited while running the breaker over `evals`, starting
state included. -/
def traceLevels (threshold : ℕ) (s : BreakerState) :
    List BreakerLevel → List BreakerLevel
  | [] => [s.level]
  | e :: es => s.level :: traceLevels threshold (breakerStep threshold s e) es

theorem rank_stepUp (l : BreakerLevel) : l.rank ≤ l.stepUp.rank + 1 := by
  cases l <;> simp [BreakerLevel.stepUp, BreakerLevel.rank]

theorem breakerStep_rank_ge (threshold : ℕ) (s : BreakerState)
    (e : BreakerLevel) : s.level.rank ≤ (breakerStep threshold s e).level.rank + 1 := by
  unfold breakerStep
  split
  · dsimp only
    omega
  split
  · split
    · exact rank_stepUp s.level
    · dsimp only
      omega
  · dsimp only
    omega

theorem breakerStep_up_iff (threshold : ℕ) (s : BreakerState) (e : BreakerLevel)
    (h : (breakerStep threshold s e).level.rank < s.level.rank) :
    (breakerStep threshold s e).level = s.level.stepUp ∧
      threshold ≤ s.improveCount + 1 ∧ e.rank < s.level.rank := by
  by_cases h1 : s.level.rank < e.rank
  · simp [breakerStep, h1] at h
    omega
  by_cases h2 : e.rank < s.level.rank
  · by_cases h3 : threshold ≤ s.improveCount + 1
    · simp [breakerStep, h1, h2, h3]
    · simp [breakerStep, h1, h2, h3] at h
  · simp [breakerStep, h1, h2] at h

theorem breakerRun_counting (threshold : ℕ) (lvl : BreakerLevel)
    (hl : lvl ≠ .normal) :
    ∀ k c, c + k < threshold →
      breakerRun threshold ⟨lvl, c⟩ (List.replicate k .normal) = ⟨lvl, c + k⟩ := by
  have hrank : 0 < lvl.rank := by
    cases lvl <;> simp_all [BreakerLevel.rank]
  intro k
  induction k with
  | zero => intro c _; simp [breakerRun]
  | succ n ih =>
    intro c hc
    have hth : ¬ threshold ≤ c + 1 := by omega
    have h0 : BreakerLevel.rank .normal = 0 := rfl
    have hstep : breakerStep threshold ⟨lvl, c⟩ .normal = ⟨lvl, c + 1⟩ := by
      simp only [breakerStep, h0]
      rw [if_neg (by omega), if_pos hrank, if_neg hth]
    have hrw : breakerRun threshold ⟨lvl, c⟩ (List.replicate (n + 1) .normal) =
        breakerRun threshold ⟨lvl, c + 1⟩ (List.replicate n .normal) := by
      simp [breakerRun, List.replicate_succ, hstep]
    rw [hrw, ih (c + 1) (by omega)]
    congr 1
    omega

theorem breakerRun_recovers (threshold : ℕ) (lvl : BreakerLevel)
    (hl : lvl ≠ .normal) (ht : 1 ≤ threshold) :
    breakerRun threshold ⟨lvl, 0⟩ (List.replicate threshold .normal) =
      ⟨lvl.stepUp, 0⟩ := by
  have hrank : 0 < lvl.rank := by
    cases lvl <;> simp_all [BreakerLevel.rank]
  obtain ⟨m, rfl⟩ : ∃ m, threshold = m + 1 := ⟨threshold - 1, by omega⟩
  have hsplit : List.replicate (m + 1) BreakerLevel.normal =
      List.replicate m BreakerLevel.normal ++ [BreakerLevel.normal] := by
    rw [List.replicate_succ']
  rw [breakerRun, hsplit, List.foldl_append]
  have hrun := breakerRun_counting (m + 1) lvl hl m 0 (by omega)
  rw [breakerRun] at hrun
  rw [hrun]
  simp only [List.foldl_cons, List.foldl_nil]
  have h0 : BreakerLevel.rank .normal = 0 := rfl
  simp only [breakerStep, h0]
  rw [if_neg (by omega), if_pos hrank, if_pos (by omega)]

theorem traceLevels_head (threshold : ℕ) (s : BreakerState)
    (evals : List BreakerLevel) : s.level ∈ traceLevels threshold s evals := by
  cases evals <;> simp [traceLevels]

/-- Crossing lemma: since upward moves go one rank at a time, any run whose
final rank drops to `v` or below, from a start strictly above `v`, visits a
level of rank exactly `v`. -/
theorem breaker_crossing (threshold : ℕ) :
    ∀ (evals : List BreakerLevel) (s : BreakerState) (v : ℕ),
      v + 1 ≤ s.level.rank →
      (breakerRun threshold s evals).level.rank ≤ v →
      ∃ l ∈ traceLevels threshold s evals, l.rank = v := by
  intro evals
  induction evals with
  | nil =>
    intro s v hs hr
    simp [breakerRun] at hr
    omega
  | cons e es ih =>
    intro s v hs hr
    have hrun : breakerRun threshold s (e :: es) =
        breakerRun threshold (breakerStep threshold s e) es := by
      simp [breakerRun]
    by_cases hv : v + 1 ≤ (breakerStep threshold s e).level.rank
    · obtain ⟨l, hmem, hrank⟩ := ih (breakerStep threshold s e) v hv (by rw [← hrun]; exact hr)
      exact ⟨l, by simp [traceLevels]; right; exact hmem, hrank⟩
    · push_neg at hv
      have hge := breakerStep_rank_ge threshold s e
      have : (breakerStep threshold s e).level.rank = v := by omega
      refine ⟨(breakerStep threshold s e).level, ?_, this⟩
      simp [traceLevels]
      right
      exact traceLevels_head threshold _ es

theorem rank_eq_two (l : BreakerLevel) (h : l.rank = 2) : l = .moderate := by
  cases l <;> simp_all [BreakerLevel.rank]

theorem rank_eq_one (l : BreakerLevel) (h : l.rank = 1) : l = .light := by
  cases l <;> simp_all [BreakerLevel.rank]

/-- C2: the circuit breaker never moves upward (less restrictive) by more
than one level per evaluation; an upward step happens only on an improving
signal after the configured number of consecutive improving evaluations
(counter threshold reached), stepping exactly one level; with the default
threshold 3, fewer than 3 consecutive improving evaluations leave the
level unchanged and exactly 3 step it up by one; and any run from Severe
that ends at Normal passes through Moderate and through Light. -/
theorem C2_breaker_monotonic_recovery :
    (∀ threshold (s : BreakerState) (e : BreakerLevel),
      s.level.rank ≤ (breakerStep threshold s e).level.rank + 1) ∧
    (∀ threshold (s : BreakerState) (e : BreakerLevel),
      (breakerStep threshold s e).level.rank < s.level.rank →
        (breakerStep threshold s e).level = s.level.stepUp ∧
        threshold ≤ s.improveCount + 1 ∧ e.rank < s.level.rank) ∧
    (∀ (lvl : BreakerLevel) (k : ℕ), lvl ≠ .normal → k < 3 →
      breakerRun 3 ⟨lvl, 0⟩ (List.replicate k .normal) = ⟨lvl, k⟩) ∧
    (∀ lvl : BreakerLevel, lvl ≠ .normal →
      breakerRun 3 ⟨lvl, 0⟩ (List.replicate 3 .normal) = ⟨lvl.stepUp, 0⟩) ∧
    (∀ threshold (c : ℕ) (evals : List BreakerLevel),
      (breakerRun threshold ⟨.severe, c⟩ evals).level = .normal →
        BreakerLevel.moderate ∈ traceLevels threshold ⟨.severe, c⟩ evals ∧
        BreakerLevel.light ∈ traceLevels threshold ⟨.severe, c⟩ evals) := by
  refine ⟨breakerStep_rank_ge, breakerStep_up_iff, ?_, ?_, ?_⟩
  · intro lvl k hl hk
    have := breakerRun_counting 3 lvl hl k 0 (by omega)
    simpa using this
  · intro lvl hl
    exact breakerRun_recovers 3 lvl hl (by omega)
  · intro threshold c evals hend
    have hrank0 : (breakerRun threshold ⟨.severe, c⟩ evals).level.rank = 0 := by
      rw [hend]; rfl
    have h2 := breaker_crossing threshold evals ⟨.severe, c⟩ 2
      (by simp [BreakerLevel.rank]) (by omega)
    have h1 := breaker_crossing threshold evals ⟨.severe, c⟩ 1
      (by simp [BreakerLevel.rank]) (by omega)
    obtain ⟨l2, hm2, hr2⟩ := h2
    obtain ⟨l1, hm1, hr1⟩ := h1
    rw [rank_eq_two l2 hr2] at hm2
    rw [rank_eq_one l1 hr1] at hm1
    exact ⟨hm2, hm1⟩

/-- Witness for C2: nine consecutive improving evaluations take Severe back
to Normal, visiting Moderate and Light on the way. -/
theorem C2_breaker_monotonic_recovery_witness :
    BreakerLevel.moderate ∈ traceLevels 3 ⟨.severe, 0⟩ (List.replicate 9 .normal) ∧
    BreakerLevel.light ∈ traceLevels 3 ⟨.severe, 0⟩ (List.replicate 9 .normal) :=
  C2_breaker_monotonic_recovery.2.2.2.2 3 0 (List.replicate 9 .normal) (by decide)

/-! ## ScoreEngine (spec §4.1, §3) -/

/-- Component scores emitted by the ScoreEngine for one asset. -/
structure ComponentScores where
  valuation_score : ℚ
  trend_score : ℚ
  volatility_score : ℚ
  special_event_score : ℚ
  total_score : ℚ
  is_default : Bool
deriving DecidableEq, Repr

/-- Modelled from the spec: the backend ScoreEngine is not under `src/`.
Each component is clipped to its documented range
(valuation, trend ∈ [0,30]; volatility, special ∈ [0,20]), the raw total is
clip(sum, 0, 100), and the emitted integer component scores absorb any
rounding drift into the largest component, so that the rounded components
always sum to the rounded total. -/
def mkComponentScores (v t vol s : ℚ) : ComponentScores :=
  let cv := clip v 0 30
  let ct := clip t 0 30
  let cvol := clip vol 0 20
  let cs := clip s 0 20
  let rawTotal := clip (cv + ct + cvol + cs) 0 100
  let rv := round cv
  let rt := round ct
  let rvol := round cvol
  let rs := round cs
  let drift := round rawTotal - (rv + rt + rvol + rs)
  if ct ≤ cv ∧ cvol ≤ cv ∧ cs ≤ cv then
    ⟨((rv + drift : ℤ) : ℚ), (rt : ℚ), (rvol : ℚ), (rs : ℚ), ((round rawTotal : ℤ) : ℚ), false⟩
  else if cvol ≤ ct ∧ cs ≤ ct then
    ⟨(rv : ℚ), ((rt + drift : ℤ) : ℚ), (rvol : ℚ), (rs : ℚ), ((round rawTotal : ℤ) : ℚ), false⟩
  else if cs ≤ cvol then
    ⟨(rv : ℚ), (rt : ℚ), ((rvol + drift : ℤ) : ℚ), (rs : ℚ), ((round rawTotal : ℤ) : ℚ), false⟩
  else
    ⟨(rv : ℚ), (rt : ℚ), (rvol : ℚ), ((rs + drift : ℤ) : ℚ), ((round rawTotal : ℤ) : ℚ), false⟩

theorem clip_lower (x lo hi : ℚ) : lo ≤ clip x lo hi := le_max_left _ _

theorem clip_upper (x lo hi : ℚ) (h : lo ≤ hi) : clip x lo hi ≤ hi :=
  max_le h (min_le_right _ _)

theorem round_mono {x y : ℚ} (h : x ≤ y) : round x ≤ round y := by
  rw [round_eq, round_eq]
  exact Int.floor_le_floor (by linarith)

theorem round_clip01_nonneg (x : ℚ) : 0 ≤ round (clip x 0 100) := by
  have h := round_mono (clip_lower x 0 100)
  simpa using h

theorem round_clip01_le (x : ℚ) : round (clip x 0 100) ≤ 100 := by
  have h := round_mono (clip_upper x 0 100 (by norm_num))
  have h100 : round (100 : ℚ) = 100 := by
    rw [show (100 : ℚ) = ((100 : ℤ) : ℚ) by norm_num, round_intCast]
  omega

/-- The ScoreEngine output always consists of four integer component scores
whose exact sum is the (integer) total score, and that total lies in
[0, 100]. -/
theorem mkComponentScores_shape (v t vol s : ℚ) :
    ∃ a b c d : ℤ, mkComponentScores v t vol s =
      ⟨(a : ℚ), (b : ℚ), (c : ℚ), (d : ℚ), ((a + b + c + d : ℤ) : ℚ), false⟩ ∧
      0 ≤ a + b + c + d ∧ a + b + c + d ≤ 100 := by
  have h0 := round_clip01_nonneg (clip v 0 30 + clip t 0 30 + clip vol 0 20 + clip s 0 20)
  have h1 := round_clip01_le (clip v 0 30 + clip t 0 30 + clip vol 0 20 + clip s 0 20)
  simp only [mkComponentScores]
  split
  · refine ⟨round (clip v 0 30) +
      (round (clip (clip v 0 30 + clip t 0 30 + clip vol 0 20 + clip s 0 20) 0 100) -
        (round (clip v 0 30) + round (clip t 0 30) + round (clip vol 0 20) + round (clip s 0 20))),
      round (clip t 0 30), round (clip vol 0 20), round (clip s 0 20), ?_, by omega, by omega⟩
    simp only [ComponentScores.mk.injEq, eq_self_iff_true, and_true, true_and]
    push_cast
    ring
  split
  · refine ⟨round (clip v 0 30), round (clip t 0 30) +
      (round (clip (clip v 0 30 + clip t 0 30 + clip vol 0 20 + clip s 0 20) 0 100) -
        (round (clip v 0 30) + round (clip t 0 30) + round (clip vol 0 20) + round (clip s 0 20))),
      round (clip vol 0 20), round (clip s 0 20), ?_, by omega, by omega⟩
    simp only [ComponentScores.mk.injEq, eq_self_iff_true, and_true, true_and]
    push_cast
    ring
  split
  · refine ⟨round (clip v 0 30), round (clip t 0 30), round (clip vol 0 20) +
      (round (clip (clip v 0 30 + clip t 0 30 + clip vol 0 20 + clip s 0 20) 0 100) -
        (round (clip v 0 30) + round (clip t 0 30) + round (clip vol 0 20) + round (clip s 0 20))),
      round (clip s 0 20), ?_, by omega, by omega⟩
    simp only [ComponentScores.mk.injEq, eq_self_iff_true, and_true, true_and]
    push_cast
    ring
  · refine ⟨round (clip v 0 30), round (clip t 0 30), round (clip vol 0 20),
      round (clip s 0 20) +
      (round (clip (clip v 0 30 + clip t 0 30 + clip vol 0 20 + clip s 0 20) 0 100) -
        (round (clip v 0 30) + round (clip t 0 30) + round (clip vol 0 20) + round (clip s 0 20))),
      ?_, by omega, by omega⟩
    simp only [ComponentScores.mk.injEq, eq_self_iff_true, and_true, true_and]
    push_cast
    ring

/-- C3: every ComponentScores value produced by the ScoreEngine satisfies
total_score = clip(valuation + trend + volatility + special, 0, 100), and
the integer-rounded components sum exactly to the integer-rounded total. -/
theorem C3_total_and_rounding_invariant (v t vol s : ℚ) :
    ((mkComponentScores v t vol s).total_score =
      clip ((mkComponentScores v t vol s).valuation_score +
        (mkComponentScores v t vol s).trend_score +
        (mkComponentScores v t vol s).volatility_score +
        (mkComponentScores v t vol s).special_event_score) 0 100) ∧
    (round (mkComponentScores v t vol s).valuation_score +
      round (mkComponentScores v t vol s).trend_score +
      round (mkComponentScores v t vol s).volatility_score +
      round (mkComponentScores v t vol s).special_event_score =
      round (mkComponentScores v t vol s).total_score) := by
  obtain ⟨a, b, c, d, heq, hlo, hhi⟩ := mkComponentScores_shape v t vol s
  rw [heq]
  dsimp only
  constructor
  · have hx : ((a : ℚ) + b + c + d) ≤ 100 := by exact_mod_cast hhi
    have hx0 : (0 : ℚ) ≤ (a : ℚ) + b + c + d := by exact_mod_cast hlo
    rw [clip, min_eq_left hx, max_eq_right hx0]
    push_cast
    ring
  · simp [round_intCast]

/-- Witness for C3 at a concrete score vector with rounding drift: raw
components 10.4, 10.4, 10.4, 0.4 sum to 31.6 while the naive rounds sum
to 31; the engine emits integer components summing to the rounded
total 32. -/
theorem C3_total_and_rounding_invariant_witness :
    round (mkComponentScores (52/5) (52/5) (52/5) (2/5)).valuation_score +
      round (mkComponentScores (52/5) (52/5) (52/5) (2/5)).trend_score +
      round (mkComponentScores (52/5) (52/5) (52/5) (2/5)).volatility_score +
      round (mkComponentScores (52/5) (52/5) (52/5) (2/5)).special_event_score =
      round (mkComponentScores (52/5) (52/5) (52/5) (2/5)).total_score :=
  (C3_total_and_rounding_invariant (52/5) (52/5) (52/5) (2/5)).2

/-! ## Frontend score display defaults (`Market.vue`, `assetsWithScores`) -/

/-- Per-asset score data from the investment-details API
(`investmentDetails.market_scores[code]`); absent fields are `none`. -/
structure ScoreData where
  total_score : Option ℚ
  valuation_score : Option ℚ
  trend_score : Option ℚ
  volatility_score : Option ℚ
  special_event_score : Option ℚ
deriving DecidableEq, Repr

/-- Per-asset strategy data
(`investmentDetails.investment_strategies[code]`). -/
structure StrategyData where
  score_level : Option String
  frequency : Option String
  amount_factor : Option ℚ
  description : Option String
deriving DecidableEq, Repr

/-- JS `x ?? d` (nullish coalescing) on a numeric field. -/
def jsNullish (x : Option ℚ) (d : ℚ) : ℚ := x.getD d

/-- JS `x || d` on a string field: null/undefined and `""` are falsy. -/
def jsOrString (x : Option String) (d : String) : String :=
  match x with
  | none => d
  | some v => if v = "" then d else v

/-- JS `x || d` on a numeric field: null/undefined and 0 are falsy. -/
def jsOrNum (x : Option ℚ) (d : ℚ) : ℚ :=
  match x with
  | none => d
  | some v => if v = 0 then d else v

/-- Strategy block of a rendered asset row. -/
structure StrategyRow where
  score_level : String
  frequency : String
  amount_factor : ℚ
  description : String
deriving DecidableEq, Repr

/-- One rendered asset row of the market-score card. -/
structure AssetScoreRow where
  code : String
  totalScore : ℤ
  valuationScore : ℤ
  trendScore : ℤ
  volatilityScore : ℤ
  specialEventScore : ℤ
  strategy : StrategyRow
deriving DecidableEq, Repr

/-- From `Market.vue` (`assetsWithScores`): the row computed for one asset,
with `Math.round` on every score, defaults 40/10/10/10/0 for missing score
fields, and strategy defaults 中性区间 / biweekly / 1.0. -/
def assetWithScores (code : String) (scoreData : ScoreData)
    (strategyData : StrategyData) : AssetScoreRow :=
  { code := code
    totalScore := round (jsNullish scoreData.total_score 40)
    valuationScore := round (jsNullish scoreData.valuation_score 10)
    trendScore := round (jsNullish scoreData.trend_score 10)
    volatilityScore := round (jsNullish scoreData.volatility_score 10)
    specialEventScore := round (jsNullish scoreData.special_event_score 0)
    strategy :=
      { score_level := jsOrString strategyData.score_level "中性区间"
        frequency := jsOrString strategyData.frequency "biweekly"
        amount_factor := jsOrNum strategyData.amount_factor 1
        description := jsOrString strategyData.description "维持常规投资节奏和金额" } }

/-- `investmentDetails.market_scores[code] || {}` for an asset with no
market data: every field missing. -/
def emptyScoreData : ScoreData := ⟨none, none, none, none, none⟩

/-- `investmentDetails.investment_strategies?.[code] || {}` for an asset
with no market data. -/
def emptyStrategyData : StrategyData := ⟨none, none, none, none⟩

/-- Modelled from the spec: the backend flags the emitted result of an
asset whose snapshot is entirely unavailable with is_default = true and
total_score 40 (the is_default producer is not under `src/`); the
component defaults follow the frontend fallbacks 10/10/10/0. -/
def defaultScoreResult : ComponentScores := ⟨10, 10, 10, 0, 40, true⟩

/-- The rendered row for an asset with no market data at all. -/
theorem assetWithScores_empty (code : String) :
    assetWithScores code emptyScoreData emptyStrategyData =
      ⟨code, 40, 10, 10, 10, 0,
        ⟨"中性区间", "biweekly", 1, "维持常规投资节奏和金额"⟩⟩ := by
  have h40 : round (40 : ℚ) = 40 := by
    rw [show (40 : ℚ) = ((40 : ℤ) : ℚ) by norm_num, round_intCast]
  have h10 : round (10 : ℚ) = 10 := by
    rw [show (10 : ℚ) = ((10 : ℤ) : ℚ) by norm_num, round_intCast]
  simp [assetWithScores, emptyScoreData, emptyStrategyData, jsNullish, jsOrString,
    jsOrNum, h40, h10]

/-- C4 counterexample: with the market score data entirely missing, the
frontend renders component scores 10/10/10/0, which are not the component
midpoints 15/15/10/10 claimed (valuation midpoint of [0,30] is 15, special
event midpoint of [0,20] is 10). -/
theorem C4_missing_snapshot_counterexample :
    ¬((assetWithScores "510300" emptyScoreData emptyStrategyData).valuationScore = 15 ∧
      (assetWithScores "510300" emptyScoreData emptyStrategyData).trendScore = 15 ∧
      (assetWithScores "510300" emptyScoreData emptyStrategyData).volatilityScore = 10 ∧
      (assetWithScores "510300" emptyScoreData emptyStrategyData).specialEventScore = 10) := by
  intro h
  rcases h with ⟨h1, _⟩
  rw [assetWithScores_empty] at h1
  exact absurd h1 (by decide)

/-- C4 (amended): for every asset whose market data is entirely
unavailable, the rendered row has total_score 40, component scores
10/10/10/0 (not the range midpoints), and the decision defaults to
frequency biweekly with amount_factor 1.0; the backend default result is
flagged is_default with total_score 40, whose score band also yields
biweekly / 1.0. -/
theorem C4_missing_snapshot_defaults (code : String) :
    assetWithScores code emptyScoreData emptyStrategyData =
      ⟨code, 40, 10, 10, 10, 0, ⟨"中性区间", "biweekly", 1, "维持常规投资节奏和金额"⟩⟩ ∧
    defaultScoreResult.is_default = true ∧
    defaultScoreResult.total_score = 40 ∧
    (frequencyPolicy defaultScoreResult.total_score).frequency = .biweekly ∧
    (frequencyPolicy defaultScoreResult.total_score).amountFactor = 1 := by
  have hfp : frequencyPolicy (40 : ℚ) = ⟨.neutral, .biweekly, 1⟩ :=
    frequencyPolicy_neutral (by norm_num) (by norm_num)
  exact ⟨assetWithScores_empty code, rfl, rfl, by rw [show defaultScoreResult.total_score =
    (40 : ℚ) from rfl, hfp], by rw [show defaultScoreResult.total_score = (40 : ℚ) from rfl, hfp]⟩

/-! ## PlanGenerator (spec §4.6) and configuration validation -/

/-- An asset in the user configuration. -/
structure Asset where
  code : String
  name : String
  type : String
  weight : ℚ
deriving DecidableEq, Repr

/-- Day-of-week index of day `d` (1-based) in a month whose first day falls
on weekday `firstWeekday` (0 = Monday … 6 = Sunday). -/
def weekdayOf (firstWeekday d : ℕ) : ℕ := (firstWeekday + (d - 1)) % 7

/-- Monday–Friday. -/
def isWeekday (w : ℕ) : Bool := w < 5

/-- Modelled from the spec: deterministic investment dates per frequency
(§4.6, the PlanGenerator is not under `src/`): daily → every weekday of
the month; weekly → the Monday of each week; biweekly → two fixed calendar
days (1st and 15th); monthly → one fixed day (the 1st). -/
def investmentDates (freq : Frequency) (daysInMonth firstWeekday : ℕ) : List ℕ :=
  match freq with
  | .daily => ((List.range daysInMonth).map (· + 1)).filter
      (fun d => isWeekday (weekdayOf firstWeekday d))
  | .weekly => ((List.range daysInMonth).map (· + 1)).filter
      (fun d => weekdayOf firstWeekday d == 0)
  | .biweekly => [1, 15]
  | .monthly => [1]

/-- One per-asset recommendation in a generated plan. -/
structure Recommendation where
  asset : Asset
  score_level : ScoreLevel
  frequency : Frequency
  amount_factor : ℚ
  monthly_amount : ℚ
  single_amount : ℚ
  investment_dates : List ℕ
deriving DecidableEq, Repr

/-- Modelled from the spec: the PlanGenerator per-asset step (§4.6), not
under `src/`: the band decision from the total score, then
monthly_amount = single_amount = weight × total monthly investment ×
amount_factor × reduction_factor, currency-rounded to two decimals, and
the deterministic dates for the target month. -/
def generateRecommendation (a : Asset) (monthlyInvestment totalScore : ℚ)
    (breaker : BreakerLevel) (daysInMonth firstWeekday : ℕ) : Recommendation :=
  let fd := frequencyPolicy totalScore
  let amt := round2 (a.weight * monthlyInvestment * fd.amountFactor *
    reductionFactor breaker)
  { asset := a
    score_level := fd.level
    frequency := fd.frequency
    amount_factor := fd.amountFactor
    monthly_amount := amt
    single_amount := amt
    investment_dates := investmentDates fd.frequency daysInMonth firstWeekday }

/-- C5: in every generated recommendation, monthly_amount and single_amount
equal weight × total_monthly_investment × amount_factor × reduction_factor
rounded to two decimals; and in Scenario A (one asset, weight 1.0,
monthly_investment 5000, total_score 85, breaker Normal) the amount is
7500, the frequency daily, and the investment dates are exactly the
weekdays of the target month. -/
theorem C5_plan_amounts_scenarioA :
    (∀ (a : Asset) (M score : ℚ) (bl : BreakerLevel) (dim fw : ℕ),
      (generateRecommendation a M score bl dim fw).monthly_amount =
        round2 (a.weight * M * (frequencyPolicy score).amountFactor *
          reductionFactor bl) ∧
      (generateRecommendation a M score bl dim fw).single_amount =
        round2 (a.weight * M * (frequencyPolicy score).amountFactor *
          reductionFactor bl)) ∧
    ((generateRecommendation ⟨"SPY", "标普500指数ETF", "美国指数", 1⟩
        5000 85 .normal 30 0).monthly_amount = 7500) ∧
    ((generateRecommendation ⟨"SPY", "标普500指数ETF", "美国指数", 1⟩
        5000 85 .normal 30 0).frequency = .daily) ∧
    (reductionFactor .normal = 1) ∧
    (∀ d : ℕ, d ∈ (generateRecommendation ⟨"SPY", "标普500指数ETF", "美国指数", 1⟩
        5000 85 .normal 30 0).investment_dates ↔
      (1 ≤ d ∧ d ≤ 30 ∧ isWeekday (weekdayOf 0 d) = true)) := by
  have hfp : frequencyPolicy (85 : ℚ) = ⟨.extremeOversold, .daily, 3/2⟩ :=
    frequencyPolicy_extreme (by norm_num)
  refine ⟨fun a M score bl dim fw => ⟨rfl, rfl⟩, ?_, ?_, rfl, ?_⟩
  · show round2 ((1 : ℚ) * 5000 * (frequencyPolicy 85).amountFactor *
      reductionFactor .normal) = 7500
    rw [hfp]
    show round2 ((1 : ℚ) * 5000 * (3/2) * 1) = 7500
    rw [show (1 : ℚ) * 5000 * (3/2) * 1 = ((7500 : ℤ) : ℚ) by norm_num]
    rw [round2, show (100 : ℚ) * ((7500 : ℤ) : ℚ) = ((750000 : ℤ) : ℚ) by norm_num,
      round_intCast]
    norm_num
  · show (frequencyPolicy (85 : ℚ)).frequency = .daily
    rw [hfp]
  · intro d
    show d ∈ investmentDates (frequencyPolicy (85 : ℚ)).frequency 30 0 ↔ _
    rw [hfp]
    show d ∈ ((List.range 30).map (· + 1)).filter
      (fun d => isWeekday (weekdayOf 0 d)) ↔ _
    simp only [List.mem_filter, List.mem_map, List.mem_range]
    constructor
    · rintro ⟨⟨x, hx, rfl⟩, hw⟩
      exact ⟨by omega, by omega, hw⟩
    · rintro ⟨h1, h2, hw⟩
      exact ⟨⟨d - 1, by omega, by omega⟩, hw⟩

/-- User configuration (`user_config.json` / the Pinia config store). -/
structure UserConfig where
  monthly_investment : ℚ
  assets : List Asset
  buffer_amount : ℚ
deriving DecidableEq, Repr

/-- From `src/frontend/src/store/config.js` (getter `isValidConfig`):
monthly_investment > 0 and a non-empty asset list. -/
def isValidConfig (c : UserConfig) : Bool :=
  decide (0 < c.monthly_investment) && decide (0 < c.assets.length)

/-- Errors of the decision engine boundary. -/
inductive PlanError
  | invalidConfig
  | outOfRangeDate
deriving DecidableEq, Repr

/-- A generated investment plan (the fields the claims constrain). -/
structure InvestmentPlan where
  recommendations : List Recommendation
deriving DecidableEq, Repr

/-- Modelled from the spec: the plan-generation entry point (§6, §7), not
under `src/`: reject with InvalidConfig iff monthly_investment ≤ 0 or the
asset list is empty, before any scoring; otherwise emit one recommendation
per asset. -/
def generatePlan (c : UserConfig) (scores : String → ℚ) (breaker : BreakerLevel)
    (daysInMonth firstWeekday : ℕ) : Except PlanError InvestmentPlan :=
  if c.monthly_investment ≤ 0 ∨ c.assets = [] then .error .invalidConfig
  else .ok ⟨c.assets.map (fun a =>
    generateRecommendation a c.monthly_investment (scores a.code) breaker
      daysInMonth firstWeekday)⟩

/-- C6: generation fails with InvalidConfig iff monthly_investment ≤ 0 or
the asset list is empty; this agrees with the store's `isValidConfig`
getter; a plan is produced iff the configuration is valid; and on an
invalid configuration the outcome does not depend on the scoring at all
(fail fast before any scoring). -/
theorem C6_invalid_config_gate (c : UserConfig) (scores : String → ℚ)
    (bl : BreakerLevel) (dim fw : ℕ) :
    ((generatePlan c scores bl dim fw = .error .invalidConfig) ↔
      (c.monthly_investment ≤ 0 ∨ c.assets = [])) ∧
    (isValidConfig c = true ↔ ¬(c.monthly_investment ≤ 0 ∨ c.assets = [])) ∧
    ((∃ p, generatePlan c scores bl dim fw = .ok p) ↔ isValidConfig c = true) ∧
    (∀ scores2 : String → ℚ, isValidConfig c = false →
      generatePlan c scores bl dim fw = generatePlan c scores2 bl dim fw) := by
  have hvalid : isValidConfig c = true ↔ ¬(c.monthly_investment ≤ 0 ∨ c.assets = []) := by
    simp [isValidConfig, not_or, not_le, List.length_pos]
  by_cases h : c.monthly_investment ≤ 0 ∨ c.assets = []
  · refine ⟨by simp [generatePlan, h], hvalid, ?_, ?_⟩
    · simp only [generatePlan, if_pos h]
      constructor
      · rintro ⟨p, hp⟩
        exact absurd hp (by simp)
      · intro hv
        exact absurd (hvalid.mp hv) (by simp [h])
    · intro scores2 _
      simp [generatePlan, h]
  · refine ⟨by simp [generatePlan, h], hvalid, ?_, ?_⟩
    · simp only [generatePlan, if_neg h]
      constructor
      · intro _
        exact hvalid.mpr h
      · intro _
        exact ⟨_, rfl⟩
    · intro scores2 hv
      exact absurd (hvalid.mpr h) (by simp [hv])

/-- Witness for C6: the default store configuration (budget 0, no assets)
is rejected independently of scoring. -/
theorem C6_invalid_config_gate_witness :
    generatePlan ⟨0, [], 500⟩ (fun _ => 50) .normal 30 0 =
      generatePlan ⟨0, [], 500⟩ (fun _ => 99) .normal 30 0 :=
  (C6_invalid_config_gate ⟨0, [], 500⟩ (fun _ => 50) .normal 30 0).2.2.2
    (fun _ => 99) (by decide)

/-! ## Historical test view (`HistoricalTest.vue`) -/

/-- Reply of the `/historical-test` API as seen by the frontend: either its
`error` field is set, or it carries the historical plan payload. -/
structure HistoricalReply where
  error : Option String
  payload : Option InvestmentPlan
deriving DecidableEq, Repr

/-- Component state of `HistoricalTest.vue`. -/
structure HistoricalTestState where
  historicalPlan : Option HistoricalReply
  errorMessage : String
  loading : Bool
deriving DecidableEq, Repr

/-- From `src/frontend/src/views/HistoricalTest.vue`
(`generateHistoricalPlan`): one button press.  With no date chosen only the
error message changes; otherwise the API result is applied: a reply with
`error` set (or a thrown error) updates only the error message, a
successful reply replaces the stored plan. -/
def generateHistoricalPlan (s : HistoricalTestState) (dateSet : Bool)
    (result : Except String HistoricalReply) : HistoricalTestState :=
  if !dateSet then { s with errorMessage := "请选择历史日期" }
  else
    match result with
    | .ok r =>
      match r.error with
      | some e => { s with errorMessage := e, loading := false }
      | none => { s with errorMessage := "", historicalPlan := some r, loading := false }
    | .error msg =>
      { s with errorMessage := "生成历史投资计划失败: " ++ msg, loading := false }

/-- Modelled from the spec: the backend HistoricalReplayAdapter (§4.7) is
not under `src/`: a requested date before the provider's earliest coverage
fails with OutOfRangeDate and carries no plan; otherwise it replays the
pipeline for that date. -/
def historicalReplay (earliestCoverage requestedDate : ℕ)
    (replay : ℕ → InvestmentPlan) : Except String HistoricalReply :=
  if requestedDate < earliestCoverage then .ok ⟨some "OutOfRangeDate", none⟩
  else .ok ⟨none, some (replay requestedDate)⟩

/-- C7: for every requested date earlier than the provider's earliest
coverage, the replay yields the OutOfRangeDate error and no plan payload,
and the frontend keeps the previously displayed plan state unchanged (this
also holds for a thrown request error). -/
theorem C7_out_of_range_keeps_plan (earliest target : ℕ)
    (replay : ℕ → InvestmentPlan) (s : HistoricalTestState)
    (h : target < earliest) :
    (historicalReplay earliest target replay = .ok ⟨some "OutOfRangeDate", none⟩) ∧
    ((generateHistoricalPlan s true (historicalReplay earliest target replay)).historicalPlan =
      s.historicalPlan) ∧
    ((generateHistoricalPlan s true (historicalReplay earliest target replay)).errorMessage =
      "OutOfRangeDate") ∧
    (∀ msg, (generateHistoricalPlan s true (.error msg)).historicalPlan =
      s.historicalPlan) := by
  have hr : historicalReplay earliest target replay = .ok ⟨some "OutOfRangeDate", none⟩ := by
    simp [historicalReplay, h]
  refine ⟨hr, ?_, ?_, ?_⟩
  · rw [hr]
    rfl
  · rw [hr]
    rfl
  · intro msg
    rfl

/-- Witness for C7: date 10 with earliest coverage 100 fails and leaves a
previously stored plan untouched. -/
theorem C7_out_of_range_keeps_plan_witness :
    (generateHistoricalPlan ⟨some ⟨none, some ⟨[]⟩⟩, "", false⟩ true
      (historicalReplay 100 10 (fun _ => ⟨[]⟩))).historicalPlan =
      (⟨some ⟨none, some ⟨[]⟩⟩, "", false⟩ : HistoricalTestState).historicalPlan :=
  (C7_out_of_range_keeps_plan 100 10 (fun _ => ⟨[]⟩)
    ⟨some ⟨none, some ⟨[]⟩⟩, "", false⟩ (by norm_num)).2.1

/-! ## Plan display totals (`Market.vue`, `calculateTotalInvestment`) -/

/-- One recommendation row of a displayed plan: the three display
coefficients plus the invested amounts. -/
structure PlanRecommendation where
  valuation_coefficient : ℚ
  trend_coefficient : ℚ
  volatility_coefficient : ℚ
  single_amount : Option ℚ
  monthly_amount : Option ℚ
deriving DecidableEq, Repr

/-- From `Market.vue` (`calculateTotalInvestment`): sum of `single_amount`
over the plan's recommendations, 0 when the plan or its list is absent. -/
def calculateTotalInvestment
    (recommendations : Option (List PlanRecommendation)) : ℚ :=
  match recommendations with
  | none => 0
  | some l => l.foldl (fun sum r => sum + r.single_amount.getD 0) 0

/-- Erase the three display coefficients, keeping every other field. -/
def eraseCoefficients (r : PlanRecommendation) : PlanRecommendation :=
  { r with
    valuation_coefficient := 0
    trend_coefficient := 0
    volatility_coefficient := 0 }

theorem foldl_single_amount (l : List PlanRecommendation) (init : ℚ) :
    l.foldl (fun sum r => sum + r.single_amount.getD 0) init =
      init + ((l.map PlanRecommendation.single_amount).map (fun x => x.getD 0)).sum := by
  induction l generalizing init with
  | nil => simp
  | cons a t ih =>
    simp only [List.foldl_cons, List.map_cons, List.sum_cons, ih]
    ring

/-- C8: two recommendation lists that differ only in their display
coefficients (same everything else) produce the same computed total and
the same per-asset monthly and single amounts: amount computation never
reads the coefficients. -/
theorem C8_coefficients_noninterference (recs recs2 : List PlanRecommendation)
    (h : recs.map eraseCoefficients = recs2.map eraseCoefficients) :
    calculateTotalInvestment (some recs) = calculateTotalInvestment (some recs2) ∧
    recs.map PlanRecommendation.single_amount =
      recs2.map PlanRecommendation.single_amount ∧
    recs.map PlanRecommendation.monthly_amount =
      recs2.map PlanRecommendation.monthly_amount := by
  have hs : recs.map PlanRecommendation.single_amount =
      recs2.map PlanRecommendation.single_amount := by
    have h2 := congrArg (List.map PlanRecommendation.single_amount) h
    simpa [List.map_map, Function.comp, eraseCoefficients] using h2
  have hm : recs.map PlanRecommendation.monthly_amount =
      recs2.map PlanRecommendation.monthly_amount := by
    have h2 := congrArg (List.map PlanRecommendation.monthly_amount) h
    simpa [List.map_map, Function.comp, eraseCoefficients] using h2
  refine ⟨?_, hs, hm⟩
  show (recs.foldl (fun sum r => sum + r.single_amount.getD 0) 0) =
    (recs2.foldl (fun sum r => sum + r.single_amount.getD 0) 0)
  rw [foldl_single_amount, foldl_single_amount, hs]

/-- Witness for C8: two single-asset plans agreeing except on the
coefficients give the same total. -/
theorem C8_coefficients_noninterference_witness :
    calculateTotalInvestment (some [⟨1, 1, 1, some 100, some 100⟩]) =
      calculateTotalInvestment (some [⟨2, 3, 1/2, some 100, some 100⟩]) :=
  (C8_coefficients_noninterference [⟨1, 1, 1, some 100, some 100⟩]
    [⟨2, 3, 1/2, some 100, some 100⟩] rfl).1

/-! ## Volatility coefficient (`Market.vue`, `calculateVolatilityCoefficient`) -/

/-- JS truthiness of an optional numeric field (`!x` in the guard):
null/undefined and 0 are falsy. -/
def jsTruthy (x : Option ℚ) : Bool :=
  match x with
  | none => false
  | some v => decide (v ≠ 0)

/-- From `Market.vue` (`calculateVolatilityCoefficient`): 1.00 when
`atr_20` or `atr_baseline` is absent or zero, otherwise
`atr_baseline / atr_20` clamped into [0.5, 1.5] and formatted with
`toFixed(2)`. -/
def calculateVolatilityCoefficient (atr_20 atr_baseline : Option ℚ) : ℚ :=
  if !jsTruthy atr_20 || !jsTruthy atr_baseline || (atr_20 == some 0) then 1
  else round2 (max (1/2) (min (atr_baseline.getD 0 / atr_20.getD 0) (3/2)))

theorem round2_clamp_range (x : ℚ) :
    1/2 ≤ round2 (max (1/2) (min x (3/2))) ∧
      round2 (max (1/2) (min x (3/2))) ≤ 3/2 := by
  have h1 : (1/2 : ℚ) ≤ max (1/2) (min x (3/2)) := le_max_left _ _
  have h2 : max (1/2 : ℚ) (min x (3/2)) ≤ 3/2 :=
    max_le (by norm_num) (min_le_right _ _)
  have r1 := round_mono (show (50 : ℚ) ≤ 100 * max (1/2) (min x (3/2)) by linarith)
  have r2 := round_mono (show 100 * max (1/2 : ℚ) (min x (3/2)) ≤ 150 by linarith)
  have e1 : round (50 : ℚ) = 50 := by
    rw [show (50 : ℚ) = ((50 : ℤ) : ℚ) by norm_num, round_intCast]
  have e2 : round (150 : ℚ) = 150 := by
    rw [show (150 : ℚ) = ((150 : ℤ) : ℚ) by norm_num, round_intCast]
  rw [e1] at r1
  rw [e2] at r2
  constructor
  · rw [round2]
    have : (50 : ℚ) ≤ (round (100 * max (1/2) (min x (3/2))) : ℚ) := by
      exact_mod_cast r1
    linarith
  · rw [round2]
    have : ((round (100 * max (1/2) (min x (3/2))) : ℤ) : ℚ) ≤ 150 := by
      exact_mod_cast r2
    linarith

/-- C9 counterexample: for atr_baseline present and equal to 0 with
atr_20 = 1 the function returns 1.00, not the clamped quotient
clamp(0/1) = 0.5 that the claim's "otherwise" branch prescribes. -/
theorem C9_volatility_counterexample :
    calculateVolatilityCoefficient (some 1) (some 0) = 1 ∧
    round2 (max (1/2) (min (((some (0 : ℚ)).getD 0) / ((some (1 : ℚ)).getD 0)) (3/2))) = 1/2 ∧
    (1 : ℚ) ≠ 1/2 := by
  refine ⟨rfl, ?_, by norm_num⟩
  rw [show max (1/2 : ℚ) (min (((some (0 : ℚ)).getD 0) / ((some (1 : ℚ)).getD 0)) (3/2)) =
    1/2 by norm_num]
  rw [round2, show (100 : ℚ) * (1/2) = ((50 : ℤ) : ℚ) by norm_num, round_intCast]
  norm_num

/-- C9 (amended): the function is total; it returns 1.00 whenever atr_20 or
atr_baseline is missing **or equal to 0** (both are falsy in the JS
guard), otherwise it returns the clamped quotient
toFixed2(clamp(atr_baseline / atr_20, 0.5, 1.5)); in every case the result
lies in [0.5, 1.5]. -/
theorem C9_volatility_total_and_clamped (atr_20 atr_baseline : Option ℚ) :
    ((jsTruthy atr_20 = false ∨ jsTruthy atr_baseline = false) →
      calculateVolatilityCoefficient atr_20 atr_baseline = 1) ∧
    (jsTruthy atr_20 = true → jsTruthy atr_baseline = true →
      calculateVolatilityCoefficient atr_20 atr_baseline =
        round2 (max (1/2) (min (atr_baseline.getD 0 / atr_20.getD 0) (3/2)))) ∧
    (1/2 ≤ calculateVolatilityCoefficient atr_20 atr_baseline ∧
      calculateVolatilityCoefficient atr_20 atr_baseline ≤ 3/2) := by
  refine ⟨?_, ?_, ?_⟩
  · intro h
    rcases h with h | h <;> simp [calculateVolatilityCoefficient, h]
  · intro h1 h2
    have hz : (atr_20 == some 0) = false := by
      cases atr_20 with
      | none => simp [jsTruthy] at h1
      | some v =>
        simp only [jsTruthy, decide_eq_true_eq] at h1
        simp [h1]
    simp [calculateVolatilityCoefficient, h1, h2, hz]
  · by_cases hg : (!jsTruthy atr_20 || !jsTruthy atr_baseline ||
      (atr_20 == some 0)) = true
    · rw [calculateVolatilityCoefficient, if_pos hg]
      norm_num
    · rw [calculateVolatilityCoefficient, if_neg hg]
      exact round2_clamp_range _

/-- Witness for C9: atr_20 = 2, atr_baseline = 3 gives the clamped
quotient, and a missing atr_20 gives 1.00. -/
theorem C9_volatility_total_and_clamped_witness :
    calculateVolatilityCoefficient (some 2) (some 3) =
      round2 (max (1/2) (min (((some (3 : ℚ)).getD 0) / ((some (2 : ℚ)).getD 0)) (3/2))) ∧
    calculateVolatilityCoefficient none (some 3) = 1 :=
  ⟨(C9_volatility_total_and_clamped (some 2) (some 3)).2.1 (by decide) (by decide),
   (C9_volatility_total_and_clamped none (some 3)).1 (Or.inl (by decide))⟩

/-! ## Config store asset list (`src/frontend/src/store/config.js`) -/

/-- An asset entry in the config store (with its generated id). -/
structure StoreAsset where
  code : String
  name : String
  type : String
  weight : ℚ
  id : String
deriving DecidableEq, Repr

/-- From config.js (`addAsset`): unless an asset with the same code already
exists, append the asset with weight 0 and a freshly generated id. -/
def addAsset (assets : List StoreAsset) (asset : StoreAsset) (newId : String) :
    List StoreAsset :=
  if assets.any (fun a => a.code == asset.code) then assets
  else assets ++ [{ asset with weight := 0, id := newId }]

/-- From config.js (`removeAsset`): drop the assets with the given id. -/
def removeAsset (assets : List StoreAsset) (assetId : String) :
    List StoreAsset :=
  assets.filter (fun a => !(a.id == assetId))

/-- From config.js (`updateAssetWeight`): set the weight of the first asset
with the given id, if any. -/
def updateAssetWeight : List StoreAsset → String → ℚ → List StoreAsset
  | [], _, _ => []
  | a :: rest, assetId, w =>
    if a.id == assetId then { a with weight := w } :: rest
    else a :: updateAssetWeight rest assetId w

/-- One config-store action touching the asset list. -/
inductive ConfigAction
  | add (asset : StoreAsset) (newId : String)
  | remove (assetId : String)
  | updateWeight (assetId : String) (w : ℚ)
deriving DecidableEq, Repr

/-- Apply one store action. -/
def applyAction (assets : List StoreAsset) : ConfigAction → List StoreAsset
  | .add a i => addAsset assets a i
  | .remove i => removeAsset assets i
  | .updateWeight i w => updateAssetWeight assets i w

/-- Apply a sequence of store actions. -/
def applyActions (assets : List StoreAsset) (acts : List ConfigAction) :
    List StoreAsset :=
  acts.foldl applyAction assets

/-- The asset codes of the store, in order. -/
def codesOf (assets : List StoreAsset) : List String :=
  assets.map StoreAsset.code

theorem codesOf_updateAssetWeight (assets : List StoreAsset) (assetId : String)
    (w : ℚ) : codesOf (updateAssetWeight assets assetId w) = codesOf assets := by
  induction assets with
  | nil => rfl
  | cons a rest ih =>
    rw [updateAssetWeight]
    split
    · rfl
    · simp only [codesOf, List.map_cons] at ih ⊢
      rw [ih]

theorem addAsset_preserves_nodup (assets : List StoreAsset) (asset : StoreAsset)
    (newId : String) (h : (codesOf assets).Nodup) :
    (codesOf (addAsset assets asset newId)).Nodup := by
  rw [addAsset]
  split
  · exact h
  · rename_i hany
    have hnotin : asset.code ∉ codesOf assets := by
      intro hmem
      simp only [codesOf, List.mem_map] at hmem
      obtain ⟨a, ha, hcode⟩ := hmem
      have : assets.any (fun a => a.code == asset.code) = true := by
        rw [List.any_eq_true]
        exact ⟨a, ha, by simp [hcode]⟩
      simp [this] at hany
    simp only [codesOf, List.map_append, List.map_cons, List.map_nil]
    rw [List.nodup_append]
    refine ⟨h, List.nodup_singleton _, ?_⟩
    intro x hx
    simp only [List.mem_singleton]
    intro hxcode
    subst hxcode
    exact hnotin hx

theorem removeAsset_preserves_nodup (assets : List StoreAsset) (assetId : String)
    (h : (codesOf assets).Nodup) : (codesOf (removeAsset assets assetId)).Nodup := by
  have hsub : List.Sublist (codesOf (removeAsset assets assetId)) (codesOf assets) :=
    (List.filter_sublist assets).map StoreAsset.code
  exact h.sublist hsub

theorem applyAction_preserves_nodup (assets : List StoreAsset) (act : ConfigAction)
    (h : (codesOf assets).Nodup) : (codesOf (applyAction assets act)).Nodup := by
  cases act with
  | add a i => exact addAsset_preserves_nodup assets a i h
  | remove i => exact removeAsset_preserves_nodup assets i h
  | updateWeight i w => rw [applyAction, codesOf_updateAssetWeight]; exact h

theorem applyActions_preserves_nodup (acts : List ConfigAction) :
    ∀ assets, (codesOf assets).Nodup → (codesOf (applyActions assets acts)).Nodup := by
  induction acts with
  | nil => intro assets h; exact h
  | cons a t ih =>
    intro assets h
    exact ih (applyAction assets a) (applyAction_preserves_nodup assets a h)

/-- C10: `addAsset` leaves the store unchanged when an asset with the same
code exists and otherwise appends exactly one asset (with weight 0 and the
fresh id); consequently asset codes stay pairwise distinct under any
sequence of addAsset / removeAsset / updateAssetWeight actions starting
from a state with pairwise-distinct codes. -/
theorem C10_asset_code_uniqueness :
    (∀ (assets : List StoreAsset) (asset : StoreAsset) (newId : String),
      assets.any (fun a => a.code == asset.code) = true →
      addAsset assets asset newId = assets) ∧
    (∀ (assets : List StoreAsset) (asset : StoreAsset) (newId : String),
      assets.any (fun a => a.code == asset.code) = false →
      addAsset assets asset newId =
        assets ++ [⟨asset.code, asset.name, asset.type, 0, newId⟩]) ∧
    (∀ (assets : List StoreAsset) (acts : List ConfigAction),
      (codesOf assets).Nodup → (codesOf (applyActions assets acts)).Nodup) := by
  refine ⟨?_, ?_, fun assets acts h => applyActions_preserves_nodup acts assets h⟩
  · intro assets asset newId h
    rw [addAsset, if_pos h]
  · intro assets asset newId h
    rw [addAsset, if_neg (by simp [h])]

/-- Witness for C10: adding a duplicate code is a no-op, and a concrete
add/remove/update sequence keeps the codes pairwise distinct. -/
theorem C10_asset_code_uniqueness_witness :
    addAsset [⟨"SPY", "标普500指数ETF", "美国指数", 1/2, "1"⟩]
      ⟨"SPY", "重复资产", "其他", 0, ""⟩ "2" =
      [⟨"SPY", "标普500指数ETF", "美国指数", 1/2, "1"⟩] ∧
    (codesOf (applyActions [⟨"SPY", "标普500指数ETF", "美国指数", 1/2, "1"⟩]
      [.add ⟨"QQQ", "纳斯达克100指数ETF", "美国指数", 0, ""⟩ "2",
       .remove "1", .updateWeight "2" (1/3)])).Nodup :=
  ⟨C10_asset_code_uniqueness.1 _ _ "2" (by decide),
   C10_asset_code_uniqueness.2.2 [⟨"SPY", "标普500指数ETF", "美国指数", 1/2, "1"⟩]
     [.add ⟨"QQQ", "纳斯达克100指数ETF", "美国指数", 0, ""⟩ "2",
      .remove "1", .updateWeight "2" (1/3)] (by decide)⟩

end AutoInvest
